import Mathlib

/-!
Shallow embedding of the PieTester backtesting core (`PieTester.py`).

The embedded functions are `evaluate_strategy_on_bar` (the per-bar signal
evaluator) and `backtest` (the simulation loop).  Prices are modelled as
rationals, timestamps as integers.  The AST argument that the Python code
receives (and ignores) is modelled as a value of an arbitrary type.
-/

namespace PieTester

/-- One OHLCV bar: the dataframe row used by the backtest.  `time` models the
row's index label (`current.name` in the source). -/
structure Bar where
  time : Int
  open_p : ℚ
  high : ℚ
  low : ℚ
  close : ℚ
  volume : ℚ
  deriving Repr, DecidableEq

/-- `COMMISSION_RATE = 0.001` from the configuration section of the source. -/
def COMMISSION_RATE : ℚ := 1 / 1000

/-- The two values `evaluate_strategy_on_bar` can return:
`"enter_long"` and `"exit"`. -/
inductive Decision where
  | enter_long : Decision
  | exit_sig : Decision
  deriving Repr, DecidableEq

/-- `evaluate_strategy_on_bar(ast_tree, current_bar, previous_bar)`:
returns `"enter_long"` when the current close is strictly greater than the
previous close, `"exit"` otherwise.  The AST argument is only unparsed for
printing in the source and does not influence the result. -/
def evaluate_strategy_on_bar {α : Type} (ast_tree : α)
    (current_bar previous_bar : Bar) : Decision :=
  if current_bar.close > previous_bar.close then
    Decision.enter_long
  else
    Decision.exit_sig

/-- A trade record appended to the `trades` list: the dict
`{"Trade": ..., "Time": ..., "Price": ..., ("Profit": ...,) "Comment": ...}`.
`profit` is `none` for entry records (the key is absent in the source). -/
structure Trade where
  kind : String
  time : Int
  price : ℚ
  profit : Option ℚ
  comment : String
  deriving Repr, DecidableEq

/-- The open-position dict `{"entry_time": ..., "entry_price": ...}`. -/
structure Position where
  entry_time : Int
  entry_price : ℚ
  deriving Repr, DecidableEq

/-- The mutable state of the `backtest` loop: `trades`, `position`, `cash`. -/
structure BTState where
  trades : List Trade
  position : Option Position
  cash : ℚ
  deriving Repr, DecidableEq

/-- The initial state of `backtest`: no trades, no position, cash 10000. -/
def initState : BTState :=
  { trades := [], position := none, cash := 10000 }

/-- One iteration of the `backtest` loop body, for the pair
(`previous`, `current`):

* `enter_long` and no open position: open a position at the current close,
  append a `"Long Entry"` trade, debit cash by the close;
* `exit` and an open position: append an `"Exit"` trade with
  `profit = exit_price - entry_price`, credit cash by the close, clear the
  position;
* otherwise: no change. -/
def backtestStep {α : Type} (ast_tree : α) (st : BTState)
    (previous current : Bar) : BTState :=
  let decision := evaluate_strategy_on_bar ast_tree current previous
  match decision, st.position with
  | Decision.enter_long, none =>
      { st with
        position := some { entry_time := current.time,
                           entry_price := current.close }
        trades := st.trades ++
          [{ kind := "Long Entry", time := current.time,
             price := current.close, profit := none,
             comment := "Entered long" }]
        cash := st.cash - current.close }
  | Decision.exit_sig, some p =>
      { st with
        trades := st.trades ++
          [{ kind := "Exit", time := current.time, price := current.close,
             profit := some (current.close - p.entry_price),
             comment := "Exited position" }]
        cash := st.cash + current.close
        position := none }
  | _, _ => st

/-- The loop `for i in range(1, len(df))`, threading the previous bar. -/
def backtestGo {α : Type} (ast_tree : α) :
    Bar → List Bar → BTState → BTState
  | _, [], st => st
  | prev, curr :: rest, st =>
      backtestGo ast_tree curr rest (backtestStep ast_tree st prev curr)

/-- The final state of `backtest(ast_tree, df)` (trades, position and the
cash that the source prints at the end of the run). -/
def backtestState {α : Type} (ast_tree : α) (df : List Bar) : BTState :=
  match df with
  | [] => initState
  | b :: rest => backtestGo ast_tree b rest initState

/-- `backtest(ast_tree, df)`: the returned `trades` list. -/
def backtest {α : Type} (ast_tree : α) (df : List Bar) : List Trade :=
  (backtestState ast_tree df).trades

/-- A bar whose four prices all equal `c` (only `close` and `time` are read
by the embedded functions). -/
def mkBar (t : Int) (c : ℚ) : Bar :=
  { time := t, open_p := c, high := c, low := c, close := c, volume := 1 }

/-- The concrete four-bar scenario: closes 100, 105, 95, 110 at
timestamps 0, 1, 2, 3. -/
def scenarioDF : List Bar :=
  [mkBar 0 100, mkBar 1 105, mkBar 2 95, mkBar 3 110]

/-- The same closes with strictly decreasing timestamps: a series that
violates the strictly-increasing-timestamp invariant. -/
def nonMonoDF : List Bar :=
  [mkBar 5 100, mkBar 3 105, mkBar 1 95, mkBar 0 110]

/-- The fields of a trade record other than its timestamp. -/
def stripTime (t : Trade) : String × ℚ × Option ℚ × String :=
  (t.kind, t.price, t.profit, t.comment)

/-- A backtest state with one open long position, entered at price 105 at
timestamp 1, as produced after the first two scenario bars. -/
def openSt : BTState :=
  { trades := [{ kind := "Long Entry", time := 1, price := 105,
                 profit := none, comment := "Entered long" }]
    position := some { entry_time := 1, entry_price := 105 }
    cash := 9895 }

/-- Sum of the `Price` fields of the `"Long Entry"` records of a trade
list. -/
def entryPriceSum (ts : List Trade) : ℚ :=
  ((ts.filter fun t => t.kind = "Long Entry").map Trade.price).sum

/-- Sum of the `Price` fields of the `"Exit"` records of a trade list. -/
def exitPriceSum (ts : List Trade) : ℚ :=
  ((ts.filter fun t => t.kind = "Exit").map Trade.price).sum

/-- Sum of the `Profit` fields of a trade list; records without a profit
(entries) contribute 0. -/
def profitSum (ts : List Trade) : ℚ :=
  (ts.map fun t => t.profit.getD 0).sum

/-- The entry price of the open position, or 0 when flat. -/
def openEntryPrice : Option Position → ℚ
  | none => 0
  | some p => p.entry_price

end PieTester

namespace PieTester

/-- Claim C8: the per-bar signal is determined solely by comparing the
current close with the previous close and is independent of the parsed AST:
any two AST values give the same decision, namely `enter_long` when the
current close is strictly greater than the previous close and `exit`
otherwise. -/
theorem C8_signal_independent_of_ast {α β : Type} (a1 : α) (a2 : β)
    (cb pb : Bar) :
    evaluate_strategy_on_bar a1 cb pb = evaluate_strategy_on_bar a2 cb pb ∧
    evaluate_strategy_on_bar a1 cb pb =
      (if cb.close > pb.close then Decision.enter_long
       else Decision.exit_sig) :=
  ⟨rfl, rfl⟩

/-- Claim C9: for a series with fewer than two bars the loop body never
runs: the trade list is empty and final cash is the starting 10000. -/
theorem C9_short_series {α : Type} (ast : α) (df : List Bar)
    (h : df.length < 2) :
    backtest ast df = [] ∧ (backtestState ast df).cash = 10000 := by
  match df with
  | [] => exact ⟨rfl, rfl⟩
  | [b] => exact ⟨rfl, rfl⟩
  | a :: b :: rest => exfalso; simp [List.length_cons] at h; omega

/-- Witness for C9 at the empty series and at a one-bar series. -/
theorem C9_short_series_witness :
    ([] : List Bar).length < 2 ∧
    backtest () ([] : List Bar) = [] ∧
    (backtestState () [mkBar 0 100]).cash = 10000 :=
  ⟨by decide, (C9_short_series () [] (by decide)).1,
   (C9_short_series () [mkBar 0 100] (by decide)).2⟩

/-- Claim C4: the position is a single optional record, so at most one
position is open at any bar; an `enter_long` decision while a position is
open, and an `exit` decision while flat, leave the whole state (cash,
position, trades) unchanged. -/
theorem C4_single_position_noop {α : Type} (ast : α) (st : BTState)
    (prev curr : Bar) :
    (∀ p, st.position = some p →
      evaluate_strategy_on_bar ast curr prev = Decision.enter_long →
      backtestStep ast st prev curr = st) ∧
    (st.position = none →
      evaluate_strategy_on_bar ast curr prev = Decision.exit_sig →
      backtestStep ast st prev curr = st) := by
  constructor
  · intro p hp hd
    simp [backtestStep, hd, hp]
  · intro hp hd
    simp [backtestStep, hd, hp]

/-- Witness for C4: entering while already long and exiting while flat are
both no-ops on concrete states. -/
theorem C4_single_position_noop_witness :
    backtestStep () openSt (mkBar 1 100) (mkBar 2 103) = openSt ∧
    backtestStep () initState (mkBar 1 105) (mkBar 2 95) = initState :=
  ⟨(C4_single_position_noop () openSt (mkBar 1 100) (mkBar 2 103)).1
      ⟨1, 105⟩ rfl (by decide),
   (C4_single_position_noop () initState (mkBar 1 105) (mkBar 2 95)).2
      rfl (by decide)⟩

end PieTester

namespace PieTester

/-- Counterexample to claim C1: on the concrete scenario the returned trade
list has three records, not two — the entry of the position left open at the
end is itself appended to the ledger. -/
theorem C1_counterexample : (backtest () scenarioDF).length ≠ 2 := by decide

/-- Claim C1 (amended): on the concrete scenario the backtest produces
exactly three trade records — a long entry at 105, an exit at 95 with
realized profit −10, and a long entry at 110 — and the position entered at
110 is still open at the end of the run. -/
theorem C1_scenario_ledger :
    backtest () scenarioDF =
      [{ kind := "Long Entry", time := 1, price := 105, profit := none,
         comment := "Entered long" },
       { kind := "Exit", time := 2, price := 95, profit := some (-10),
         comment := "Exited position" },
       { kind := "Long Entry", time := 3, price := 110, profit := none,
         comment := "Entered long" }] ∧
    (backtestState () scenarioDF).position =
      some { entry_time := 3, entry_price := 110 } := by
  norm_num [backtest, backtestState, backtestGo, backtestStep,
    evaluate_strategy_on_bar, scenarioDF, mkBar, initState]

/-- Counterexample to claim C2: no commission is charged.  On the scenario,
the recorded exit profit is −10, not the −10.2 that the configured
`COMMISSION_RATE` of 0.001 on both legs would give; and after the entry at
105 the cash is 10000 − 105, not 10000 − (105 + 0.001 × 105). -/
theorem C2_counterexample :
    (backtest () scenarioDF).map Trade.profit = [none, some (-10), none] ∧
    (-10 : ℚ) ≠ (95 - 105) - COMMISSION_RATE * 105 - COMMISSION_RATE * 95 ∧
    (backtestState () (scenarioDF.take 2)).cash = 10000 - 105 ∧
    (10000 - 105 : ℚ) ≠ 10000 - (105 + COMMISSION_RATE * 105) := by
  norm_num [backtest, backtestState, backtestGo, backtestStep,
    evaluate_strategy_on_bar, scenarioDF, mkBar, initState, COMMISSION_RATE]

/-- Claim C2 (amended): no commission is ever applied, although
`COMMISSION_RATE` is configured.  Entering a position debits cash by exactly
the entry close (size 1, no commission), and exiting credits cash by exactly
the exit close and records realized profit `exit_price − entry_price` with
no commission term. -/
theorem C2_no_commission {α : Type} (ast : α) (st : BTState)
    (prev curr : Bar) :
    (st.position = none → curr.close > prev.close →
      (backtestStep ast st prev curr).cash = st.cash - curr.close) ∧
    (∀ p, st.position = some p → ¬ curr.close > prev.close →
      (backtestStep ast st prev curr).cash = st.cash + curr.close ∧
      (backtestStep ast st prev curr).trades = st.trades ++
        [{ kind := "Exit", time := curr.time, price := curr.close,
           profit := some (curr.close - p.entry_price),
           comment := "Exited position" }]) := by
  constructor
  · intro hp hgt
    simp [backtestStep, evaluate_strategy_on_bar, hgt, hp]
  · intro p hp hle
    simp [backtestStep, evaluate_strategy_on_bar, hle, hp]

/-- Witness for C2 (amended): the entry leg from the flat initial state and
the exit leg from an open position, on concrete bars. -/
theorem C2_no_commission_witness :
    (backtestStep () initState (mkBar 0 100) (mkBar 1 105)).cash =
      initState.cash - (mkBar 1 105).close ∧
    (backtestStep () openSt (mkBar 1 105) (mkBar 2 95)).cash =
      openSt.cash + (mkBar 2 95).close :=
  ⟨(C2_no_commission () initState (mkBar 0 100) (mkBar 1 105)).1
      rfl (by decide),
   ((C2_no_commission () openSt (mkBar 1 105) (mkBar 2 95)).2
      ⟨1, 105⟩ rfl (by decide)).1⟩

end PieTester

namespace PieTester

theorem backtestStep_trades_shape {α : Type} (ast : α) (st : BTState)
    (prev curr : Bar) :
    (backtestStep ast st prev curr).trades = st.trades ∨
    ∃ tr, (backtestStep ast st prev curr).trades = st.trades ++ [tr] ∧
      tr.time = curr.time ∧ tr.price = curr.close := by
  unfold backtestStep
  cases hd : evaluate_strategy_on_bar ast curr prev <;>
    cases hp : st.position
  · right; exact ⟨_, rfl, rfl, rfl⟩
  · left; rfl
  · left; rfl
  · right; exact ⟨_, rfl, rfl, rfl⟩

theorem backtestStep_no_rise {α : Type} (ast : α) (st : BTState)
    (prev curr : Bar) (hle : curr.close ≤ prev.close)
    (hp : st.position = none) :
    backtestStep ast st prev curr = st := by
  simp [backtestStep, evaluate_strategy_on_bar, not_lt.mpr hle, hp]

theorem backtestGo_no_rise {α : Type} (ast : α) :
    ∀ (rest : List Bar) (prev : Bar),
      List.Chain' (fun a b => b.close ≤ a.close) (prev :: rest) →
      backtestGo ast prev rest initState = initState := by
  intro rest
  induction rest with
  | nil => intro prev h; rfl
  | cons curr rest ih =>
      intro prev h
      rw [List.chain'_cons] at h
      show backtestGo ast curr rest (backtestStep ast initState prev curr) =
        initState
      rw [backtestStep_no_rise ast initState prev curr h.1 rfl]
      exact ih curr h.2

/-- Claim C6: when no bar produces a state-changing signal — with the
embedded evaluator this means the close never strictly rises from one bar
to the next, so every decision is `exit` while flat — the trade list is
empty and final cash equals the starting 10000. -/
theorem C6_no_signal_run {α : Type} (ast : α) (df : List Bar)
    (h : List.Chain' (fun a b => b.close ≤ a.close) df) :
    backtest ast df = [] ∧ (backtestState ast df).cash = 10000 := by
  match df with
  | [] => exact ⟨rfl, rfl⟩
  | b :: rest =>
      have hg := backtestGo_no_rise ast rest b h
      refine ⟨?_, ?_⟩
      · show (backtestGo ast b rest initState).trades = []
        rw [hg]; rfl
      · show (backtestGo ast b rest initState).cash = 10000
        rw [hg]; rfl

/-- Witness for C6 on a concrete three-bar series with never-rising
closes. -/
theorem C6_no_signal_run_witness :
    List.Chain' (fun a b => b.close ≤ a.close)
      [mkBar 0 100, mkBar 1 100, mkBar 2 90] ∧
    backtest () [mkBar 0 100, mkBar 1 100, mkBar 2 90] = [] ∧
    (backtestState () [mkBar 0 100, mkBar 1 100, mkBar 2 90]).cash = 10000 :=
  ⟨by norm_num [List.chain'_cons, mkBar],
   (C6_no_signal_run () [mkBar 0 100, mkBar 1 100, mkBar 2 90]
      (by norm_num [List.chain'_cons, mkBar])).1,
   (C6_no_signal_run () [mkBar 0 100, mkBar 1 100, mkBar 2 90]
      (by norm_num [List.chain'_cons, mkBar])).2⟩

end PieTester

namespace PieTester

theorem backtestGo_trades {α : Type} (ast : α) :
    ∀ (rest : List Bar) (prev : Bar) (st : BTState),
      ∃ s, (backtestGo ast prev rest st).trades = st.trades ++ s ∧
        (s.map Trade.time).Sublist (rest.map Bar.time) ∧
        ∀ t ∈ s, ∃ b ∈ rest, t.time = b.time ∧ t.price = b.close := by
  intro rest
  induction rest with
  | nil =>
      intro prev st
      exact ⟨[], by simp [backtestGo], by simp, by simp⟩
  | cons curr rest ih =>
      intro prev st
      obtain ⟨s, hs, hsub, hmem⟩ := ih curr (backtestStep ast st prev curr)
      rcases backtestStep_trades_shape ast st prev curr with
        h | ⟨tr, h, htt, htp⟩
      · refine ⟨s, ?_, ?_, ?_⟩
        · show (backtestGo ast curr rest
            (backtestStep ast st prev curr)).trades = st.trades ++ s
          rw [hs, h]
        · exact hsub.trans (List.sublist_cons_self _ _)
        · intro t ht
          obtain ⟨b, hb, hbt⟩ := hmem t ht
          exact ⟨b, List.mem_cons_of_mem _ hb, hbt⟩
      · refine ⟨tr :: s, ?_, ?_, ?_⟩
        · show (backtestGo ast curr rest
            (backtestStep ast st prev curr)).trades = st.trades ++ tr :: s
          rw [hs, h, List.append_assoc, List.singleton_append]
        · show (tr.time :: s.map Trade.time).Sublist
            (curr.time :: rest.map Bar.time)
          rw [htt]
          exact hsub.cons₂ _
        · intro t ht
          rcases List.mem_cons.mp ht with h1 | h1
          · exact ⟨curr, List.mem_cons_self _ _,
              by rw [h1]; exact ⟨htt, htp⟩⟩
          · obtain ⟨b, hb, hbt⟩ := hmem t h1
            exact ⟨b, List.mem_cons_of_mem _ hb, hbt⟩

theorem backtest_trades_eq {α : Type} (ast : α) (b : Bar) (rest : List Bar) :
    ∃ s, backtest ast (b :: rest) = s ∧
      (s.map Trade.time).Sublist (rest.map Bar.time) ∧
      ∀ t ∈ s, ∃ bb ∈ rest, t.time = bb.time ∧ t.price = bb.close := by
  obtain ⟨s, hs, hsubl, hmem⟩ := backtestGo_trades ast rest b initState
  refine ⟨s, ?_, hsubl, hmem⟩
  show (backtestGo ast b rest initState).trades = s
  rw [hs]; rfl

/-- Claim C5: on a series with strictly increasing timestamps, the trade
list's `Time` values form a subsequence of the series timestamps and are
pairwise non-decreasing. -/
theorem C5_trade_times {α : Type} (ast : α) (df : List Bar)
    (h : List.Chain' (fun a b => a.time < b.time) df) :
    ((backtest ast df).map Trade.time).Sublist (df.map Bar.time) ∧
    List.Pairwise (fun a b : Int => a ≤ b)
      ((backtest ast df).map Trade.time) := by
  have hsub : ((backtest ast df).map Trade.time).Sublist
      (df.map Bar.time) := by
    match df with
    | [] => simp [backtest, backtestState, initState]
    | b :: rest =>
        obtain ⟨s, hs, hsubl, _⟩ := backtest_trades_eq ast b rest
        rw [hs]
        exact hsubl.trans (List.sublist_cons_self _ _)
  refine ⟨hsub, ?_⟩
  have hpw : (df.map Bar.time).Pairwise (fun a b : Int => a < b) :=
    List.chain'_iff_pairwise.mp ((List.chain'_map Bar.time).mpr h)
  exact (hpw.sublist hsub).imp le_of_lt

/-- Witness for C5 on the strictly increasing concrete scenario. -/
theorem C5_trade_times_witness :
    List.Chain' (fun a b => a.time < b.time) scenarioDF ∧
    ((backtest () scenarioDF).map Trade.time).Sublist
      (scenarioDF.map Bar.time) ∧
    List.Pairwise (fun a b : Int => a ≤ b)
      ((backtest () scenarioDF).map Trade.time) :=
  ⟨by norm_num [List.chain'_cons, scenarioDF, mkBar],
   (C5_trade_times () scenarioDF
      (by norm_num [List.chain'_cons, scenarioDF, mkBar])).1,
   (C5_trade_times () scenarioDF
      (by norm_num [List.chain'_cons, scenarioDF, mkBar])).2⟩

/-- Claim C7: every trade record comes from the bar whose evaluation
produced the signal: its `Time` is that bar's timestamp and its `Price` is
that bar's `Close` — both entry and exit fill at the signal bar's own
close. -/
theorem C7_fill_at_signal_close {α : Type} (ast : α) (df : List Bar)
    (t : Trade) (ht : t ∈ backtest ast df) :
    ∃ b ∈ df, t.time = b.time ∧ t.price = b.close := by
  match df with
  | [] => exact absurd ht (by simp [backtest, backtestState, initState])
  | b :: rest =>
      obtain ⟨s, hs, _, hmem⟩ := backtest_trades_eq ast b rest
      rw [hs] at ht
      obtain ⟨bb, hbb, hbt⟩ := hmem t ht
      exact ⟨bb, List.mem_cons_of_mem _ hbb, hbt⟩

/-- Witness for C7 at the scenario's first trade. -/
theorem C7_fill_at_signal_close_witness :
    ∃ b ∈ scenarioDF,
      ({ kind := "Long Entry", time := 1, price := 105, profit := none,
         comment := "Entered long" } : Trade).time = b.time ∧
      ({ kind := "Long Entry", time := 1, price := 105, profit := none,
         comment := "Entered long" } : Trade).price = b.close :=
  C7_fill_at_signal_close () scenarioDF _
    (by norm_num [backtest, backtestState, backtestGo, backtestStep,
      evaluate_strategy_on_bar, scenarioDF, mkBar, initState])

theorem backtestStep_strip {α β : Type} (ast : α) (ast2 : β)
    (st st2 : BTState) (prev curr prev2 curr2 : Bar)
    (hc : st.cash = st2.cash)
    (ht : st.trades.map stripTime = st2.trades.map stripTime)
    (hp : st.position.map Position.entry_price =
      st2.position.map Position.entry_price)
    (hprev : prev.close = prev2.close) (hcurr : curr.close = curr2.close) :
    (backtestStep ast st prev curr).cash =
      (backtestStep ast2 st2 prev2 curr2).cash ∧
    (backtestStep ast st prev curr).trades.map stripTime =
      (backtestStep ast2 st2 prev2 curr2).trades.map stripTime ∧
    (backtestStep ast st prev curr).position.map Position.entry_price =
      (backtestStep ast2 st2 prev2 curr2).position.map Position.entry_price := by
  have hd : evaluate_strategy_on_bar ast2 curr2 prev2 =
      evaluate_strategy_on_bar ast curr prev := by
    simp [evaluate_strategy_on_bar, hprev, hcurr]
  unfold backtestStep
  rw [hd]
  cases evaluate_strategy_on_bar ast curr prev <;>
    cases hpos : st.position <;> cases hpos2 : st2.position <;>
      simp [hpos, hpos2] at hp <;>
      simp [hpos, hpos2, stripTime, hc, ht, hcurr, hp]

theorem backtestGo_strip {α β : Type} (ast : α) (ast2 : β) :
    ∀ (rest rest2 : List Bar) (prev prev2 : Bar) (st st2 : BTState),
      rest.map Bar.close = rest2.map Bar.close →
      prev.close = prev2.close →
      st.cash = st2.cash →
      st.trades.map stripTime = st2.trades.map stripTime →
      st.position.map Position.entry_price =
        st2.position.map Position.entry_price →
      (backtestGo ast prev rest st).trades.map stripTime =
        (backtestGo ast2 prev2 rest2 st2).trades.map stripTime := by
  intro rest
  induction rest with
  | nil =>
      intro rest2 prev prev2 st st2 hcl _ _ ht _
      cases rest2 with
      | nil => exact ht
      | cons _ _ => simp at hcl
  | cons curr rest ih =>
      intro rest2 prev prev2 st st2 hcl hprev hc ht hp
      cases rest2 with
      | nil => simp at hcl
      | cons curr2 rest2 =>
          simp only [List.map_cons, List.cons.injEq] at hcl
          obtain ⟨h1, h2⟩ := hcl
          obtain ⟨hc2, ht2, hp2⟩ :=
            backtestStep_strip ast ast2 st st2 prev curr prev2 curr2
              hc ht hp hprev h1
          exact ih rest2 curr curr2 _ _ h2 h1 hc2 ht2 hp2

/-- Counterexample to claim C3: on a series whose timestamps are strictly
decreasing the run is not aborted and the trade list is not empty — the
backtest emits three trades exactly as for the monotonic series with the
same closes. -/
theorem C3_counterexample :
    ¬ List.Chain' (fun a b => a.time < b.time) nonMonoDF ∧
    (backtest () nonMonoDF).length = 3 := by
  constructor
  · norm_num [List.chain'_cons, nonMonoDF, mkBar]
  · norm_num [backtest, backtestState, backtestGo, backtestStep,
      evaluate_strategy_on_bar, nonMonoDF, mkBar, initState]

/-- Claim C3 (amended): the backtest performs no timestamp-ordering
validation at all — the trade kinds, prices, profits and comments depend
only on the closes, so a series violating timestamp ordering is processed
exactly like a well-ordered series with the same closes, trades included. -/
theorem C3_no_timestamp_validation {α β : Type} (ast : α) (ast2 : β)
    (df df2 : List Bar) (h : df.map Bar.close = df2.map Bar.close) :
    (backtest ast df).map stripTime = (backtest ast2 df2).map stripTime := by
  cases df with
  | nil =>
      cases df2 with
      | nil => rfl
      | cons _ _ => simp at h
  | cons b rest =>
      cases df2 with
      | nil => simp at h
      | cons b2 rest2 =>
          simp only [List.map_cons, List.cons.injEq] at h
          obtain ⟨h1, h2⟩ := h
          show (backtestGo ast b rest initState).trades.map stripTime =
            (backtestGo ast2 b2 rest2 initState).trades.map stripTime
          exact backtestGo_strip ast ast2 rest rest2 b b2 initState initState
            h2 h1 rfl rfl rfl

/-- Witness for C3 (amended): the monotonic and the non-monotonic series
with closes 100, 105, 95, 110 produce the same trades up to timestamps. -/
theorem C3_no_timestamp_validation_witness :
    scenarioDF.map Bar.close = nonMonoDF.map Bar.close ∧
    (backtest () scenarioDF).map stripTime =
      (backtest () nonMonoDF).map stripTime :=
  ⟨rfl, C3_no_timestamp_validation () () scenarioDF nonMonoDF rfl⟩

theorem entryPriceSum_append (ts : List Trade) (tr : Trade) :
    entryPriceSum (ts ++ [tr]) =
      entryPriceSum ts + if tr.kind = "Long Entry" then tr.price else 0 := by
  by_cases h : tr.kind = "Long Entry" <;>
    simp [entryPriceSum, List.filter_append, h]

theorem exitPriceSum_append (ts : List Trade) (tr : Trade) :
    exitPriceSum (ts ++ [tr]) =
      exitPriceSum ts + if tr.kind = "Exit" then tr.price else 0 := by
  by_cases h : tr.kind = "Exit" <;>
    simp [exitPriceSum, List.filter_append, h]

theorem profitSum_append (ts : List Trade) (tr : Trade) :
    profitSum (ts ++ [tr]) = profitSum ts + tr.profit.getD 0 := by
  simp [profitSum]

theorem backtestStep_cash_inv {α : Type} (ast : α) (st : BTState)
    (prev curr : Bar)
    (h1 : st.cash = 10000 - entryPriceSum st.trades + exitPriceSum st.trades)
    (h2 : st.cash = 10000 + profitSum st.trades
      - openEntryPrice st.position) :
    (backtestStep ast st prev curr).cash =
      10000 - entryPriceSum (backtestStep ast st prev curr).trades
        + exitPriceSum (backtestStep ast st prev curr).trades ∧
    (backtestStep ast st prev curr).cash =
      10000 + profitSum (backtestStep ast st prev curr).trades
        - openEntryPrice (backtestStep ast st prev curr).position := by
  unfold backtestStep
  cases hd : evaluate_strategy_on_bar ast curr prev <;>
    cases hpos : st.position
  · rw [hpos, openEntryPrice] at h2
    constructor
    · simp [entryPriceSum_append, exitPriceSum_append]
      linarith
    · simp [profitSum_append, openEntryPrice]
      linarith
  · exact ⟨h1, by rw [hpos] at h2 ⊢; exact h2⟩
  · exact ⟨h1, by rw [hpos] at h2 ⊢; exact h2⟩
  · rw [hpos, openEntryPrice] at h2
    constructor
    · simp [entryPriceSum_append, exitPriceSum_append]
      linarith
    · simp [profitSum_append, openEntryPrice]
      linarith

theorem backtestGo_cash_inv {α : Type} (ast : α) :
    ∀ (rest : List Bar) (prev : Bar) (st : BTState),
      st.cash = 10000 - entryPriceSum st.trades + exitPriceSum st.trades →
      st.cash = 10000 + profitSum st.trades - openEntryPrice st.position →
      ((backtestGo ast prev rest st).cash =
          10000 - entryPriceSum (backtestGo ast prev rest st).trades
            + exitPriceSum (backtestGo ast prev rest st).trades ∧
        (backtestGo ast prev rest st).cash =
          10000 + profitSum (backtestGo ast prev rest st).trades
            - openEntryPrice (backtestGo ast prev rest st).position) := by
  intro rest
  induction rest with
  | nil => intro prev st h1 h2; exact ⟨h1, h2⟩
  | cons curr rest ih =>
      intro prev st h1 h2
      obtain ⟨g1, g2⟩ := backtestStep_cash_inv ast st prev curr h1 h2
      exact ih curr _ g1 g2

/-- Claim C10: for every series (hence after every processed prefix of a
run), cash equals 10000 minus the sum of `"Long Entry"` prices plus the sum
of `"Exit"` prices of the trades so far; equivalently, cash equals 10000
plus the sum of all recorded `Profit` fields minus the entry price of the
position still open, if any. -/
theorem C10_cash_accounting {α : Type} (ast : α) (df : List Bar) :
    (backtestState ast df).cash =
      10000 - entryPriceSum (backtestState ast df).trades
        + exitPriceSum (backtestState ast df).trades ∧
    (backtestState ast df).cash =
      10000 + profitSum (backtestState ast df).trades
        - openEntryPrice (backtestState ast df).position := by
  cases df with
  | nil =>
      constructor <;>
        simp [backtestState, initState, entryPriceSum, exitPriceSum,
          profitSum, openEntryPrice]
  | cons b rest =>
      exact backtestGo_cash_inv ast rest b initState
        (by simp [initState, entryPriceSum, exitPriceSum])
        (by simp [initState, profitSum, openEntryPrice])

end PieTester
